import Mathlib

/-!
Verification development for the quibble nonlinear-programming front end.

The Python source is shallowly embedded: machine floats become `ℚ`, float
values that may be `±inf` (component bounds) become the extended-rational
type `XR`, symbolic casadi `SX` expressions become the inductive `Expr`,
Python `Optional[T]` becomes `Option T`, Python `dict` (string-keyed,
insertion ordered, last-write-wins) becomes an association list built by
`dictInsert`, and exceptions become `Except String`.  The external
nonlinear-programming engine (casadi `nlpsol`) is modelled as an oracle
`ℕ → List ℚ → EngineResult` giving, for each trial index and supplied
initial guess, the primal vector `x`, the dual vector `lam_x`, the
objective value `f`, and the success flag reported by the engine; the
`random()` stream used for guess synthesis is modelled as an explicit
sequence `ℕ → ℚ`.
-/

namespace Quibble

/-- Extended rationals: the value space of component bounds, which the
Python source stores as floats possibly equal to `±math.inf`. -/
inductive XR where
  | negInf
  | fin (q : ℚ)
  | posInf
deriving DecidableEq, Repr, Inhabited

/-- The float `<` comparison restricted to the values `XR` can take
(`-inf < q < +inf`, `-inf < +inf`, irreflexive). -/
def XR.lt : XR → XR → Bool
  | XR.negInf, XR.negInf => false
  | XR.negInf, _ => true
  | XR.fin _, XR.negInf => false
  | XR.fin a, XR.fin b => a < b
  | XR.fin _, XR.posInf => true
  | XR.posInf, _ => false

/-- Float subtraction `bound - v` for a possibly-infinite `bound` and a
finite `v` (the only combination the embedded code performs). -/
def XR.subFin : XR → ℚ → XR
  | XR.negInf, _ => XR.negInf
  | XR.fin a, q => XR.fin (a - q)
  | XR.posInf, _ => XR.posInf

/-- The float test `abs x < eps`; false for infinite `x`. -/
def XR.absLt : XR → ℚ → Bool
  | XR.negInf, _ => false
  | XR.fin a, eps => |a| < eps
  | XR.posInf, _ => false

/-- Embeds `quibble.utils.functions.replace_inf`: replace an infinite bound by
`±replace_value` (default `10 ** 10`), leave finite values unchanged. -/
def replace_inf (value : XR) (replace_value : ℚ := 10 ^ 10) : ℚ :=
  match value with
  | XR.posInf => replace_value
  | XR.negInf => -1 * replace_value
  | XR.fin q => q

/-- Symbolic expressions over the decision variables: the fragment of
casadi `SX` the embedding needs.  `var i` is the symbol returned by the
`i`-th `add_decision_variable` call. -/
inductive Expr where
  | var (i : ℕ)
  | const (q : ℚ)
  | add (a b : Expr)
  | sub (a b : Expr)
  | mul (a b : Expr)
  | neg (a : Expr)
deriving DecidableEq, Repr, Inhabited

/-- Numeric evaluation of an expression at a vector of decision-variable
values: the engine-side capability "build a `cd.Function` over the
decision-variable symbols and call it". -/
def Expr.eval (xs : List ℚ) : Expr → ℚ
  | Expr.var i => xs.getD i 0
  | Expr.const q => q
  | Expr.add a b => a.eval xs + b.eval xs
  | Expr.sub a b => a.eval xs - b.eval xs
  | Expr.mul a b => a.eval xs * b.eval xs
  | Expr.neg a => -(a.eval xs)

/-- Embeds `quibble.utils.components.OptimizationComponent`: a named, bounded,
groupable symbolic quantity.  The source field `variable` is a Lean
keyword and is embedded as `expr`. -/
structure OptimizationComponent where
  expr : Expr
  lower_bound : XR := XR.negInf
  upper_bound : XR := XR.posInf
  name : Option String := none
  group : Option String := none
deriving DecidableEq, Repr, Inhabited

/-- Embeds `quibble.utils.components.DecisionVariable`, which adds the (unused by the
solver) `is_discrete` flag. -/
structure DecisionVariable extends OptimizationComponent where
  is_discrete : Bool := false
deriving DecidableEq, Repr, Inhabited

/-- Embeds `quibble.utils.components.Constraint`, which adds nothing to the base class. -/
abbrev Constraint := OptimizationComponent

/-- Embeds `quibble.utils.components.Objective`: an expression with no bounds
(they stay at the base-class defaults `±inf`). -/
abbrev Objective := OptimizationComponent

/-- Embeds `quibble.utils.components.ResultComponent`: per-component slot of a
result; `optimal_value` is unset (`None`) until the solver writes it and
both active-bound flags start `False`. -/
structure ResultComponent where
  name : Option String
  group : Option String := none
  optimal_value : Option ℚ := none
  lower_bound_active : Bool := false
  upper_bound_active : Bool := false
deriving DecidableEq, Repr, Inhabited

/-- Embeds `OptimizationComponent.to_result_component`: project a component to a
fresh `ResultComponent` carrying only name and group. -/
def OptimizationComponent.to_result_component (c : OptimizationComponent) :
    ResultComponent :=
  { name := c.name, group := c.group }

/-- Python `dict` assignment `d[k] = v`: overwrite in place if the key is
present, else append (insertion order preserved). -/
def dictInsert {α : Type} (d : List (Option String × α)) (k : Option String)
    (v : α) : List (Option String × α) :=
  if d.any (fun p => p.1 == k) then
    d.map (fun p => if p.1 == k then (k, v) else p)
  else
    d ++ [(k, v)]

/-- Build a Python dict by successive assignments from an ordered pair
list. -/
def buildDict {α : Type} (pairs : List (Option String × α)) :
    List (Option String × α) :=
  pairs.foldl (fun d p => dictInsert d p.1 p.2) []

/-- The `Union[List[...], dict]` return shape of the extraction helpers. -/
inductive ExtractOut (α : Type) where
  | list (l : List α)
  | dict (d : List (Option String × α))
deriving DecidableEq, Repr

/-- The list payload of an extraction result (`optimal_objective_sum`
calls `sum(...)` on the `as_dict=False` output, which is always a list;
the dict arm is unreachable there). -/
def ExtractOut.toList {α : Type} : ExtractOut α → List α
  | ExtractOut.list l => l
  | ExtractOut.dict d => d.map (fun p => p.2)

/-- Embeds `OptimizationResult`: three ordered sequences of result components. -/
structure OptimizationResult where
  constraints : List ResultComponent := []
  objectives : List ResultComponent := []
  decision_variables : List ResultComponent := []
deriving DecidableEq, Repr, Inhabited

namespace OptimizationResult

/-- Embeds `OptimizationResult._extract_optimal_values`: map the components of
`category` (optionally filtered to one group) to their `optimal_value`,
returned as a list or a name-keyed dict. -/
def extract_optimal_values (as_dict : Bool) (group : Option String)
    (category : List ResultComponent) : ExtractOut (Option ℚ) :=
  match group with
  | none =>
      let out_list := category.map (fun obj => obj.optimal_value)
      let out_dict := buildDict
        (category.map (fun obj => (obj.name, obj.optimal_value)))
      if as_dict then ExtractOut.dict out_dict else ExtractOut.list out_list
  | some g =>
      let filtered := category.filter (fun obj => obj.group == some g)
      let out_list := filtered.map (fun obj => obj.optimal_value)
      let out_dict := buildDict
        (filtered.map (fun obj => (obj.name, obj.optimal_value)))
      if as_dict then ExtractOut.dict out_dict else ExtractOut.list out_list

/-- Embeds `OptimizationResult._extract_active_upper_bound` exactly as
written in the source: despite its name, docstring and `List[bool]`
annotation, its body is a verbatim copy of `_extract_optimal_values` and
maps each component to `obj.optimal_value`, never reading
`upper_bound_active`. -/
def extract_active_upper_bound (as_dict : Bool) (group : Option String)
    (category : List ResultComponent) : ExtractOut (Option ℚ) :=
  match group with
  | none =>
      let out_list := category.map (fun obj => obj.optimal_value)
      let out_dict := buildDict
        (category.map (fun obj => (obj.name, obj.optimal_value)))
      if as_dict then ExtractOut.dict out_dict else ExtractOut.list out_list
  | some g =>
      let filtered := category.filter (fun obj => obj.group == some g)
      let out_list := filtered.map (fun obj => obj.optimal_value)
      let out_dict := buildDict
        (filtered.map (fun obj => (obj.name, obj.optimal_value)))
      if as_dict then ExtractOut.dict out_dict else ExtractOut.list out_list

/-- Embeds `OptimizationResult._extract_active_lower_bound`: same verbatim copy
of `_extract_optimal_values`; never reads `lower_bound_active`. -/
def extract_active_lower_bound (as_dict : Bool) (group : Option String)
    (category : List ResultComponent) : ExtractOut (Option ℚ) :=
  match group with
  | none =>
      let out_list := category.map (fun obj => obj.optimal_value)
      let out_dict := buildDict
        (category.map (fun obj => (obj.name, obj.optimal_value)))
      if as_dict then ExtractOut.dict out_dict else ExtractOut.list out_list
  | some g =>
      let filtered := category.filter (fun obj => obj.group == some g)
      let out_list := filtered.map (fun obj => obj.optimal_value)
      let out_dict := buildDict
        (filtered.map (fun obj => (obj.name, obj.optimal_value)))
      if as_dict then ExtractOut.dict out_dict else ExtractOut.list out_list

/-- Embeds `optimal_decision_variables`. -/
def optimal_decision_variables (res : OptimizationResult)
    (as_dict : Bool := false) (group : Option String := none) :
    ExtractOut (Option ℚ) :=
  extract_optimal_values as_dict group res.decision_variables

/-- Embeds `optimal_constraint_values`. -/
def optimal_constraint_values (res : OptimizationResult)
    (as_dict : Bool := false) (group : Option String := none) :
    ExtractOut (Option ℚ) :=
  extract_optimal_values as_dict group res.constraints

/-- Embeds `optimal_objective_values`. -/
def optimal_objective_values (res : OptimizationResult)
    (as_dict : Bool := false) (group : Option String := none) :
    ExtractOut (Option ℚ) :=
  extract_optimal_values as_dict group res.objectives

/-- Python `sum` over a list of `Optional[float]`: defined (as `some`)
only when every entry is populated, mirroring the `TypeError` Python
raises on a `None` summand. -/
def sumOpt : List (Option ℚ) → Option ℚ
  | [] => some 0
  | none :: _ => none
  | some q :: rest => (sumOpt rest).map (fun s => q + s)

/-- Embeds `optimal_objective_sum`: the arithmetic sum of the
`_extract_optimal_values(as_dict=False, group, objectives)` list. -/
def optimal_objective_sum (res : OptimizationResult)
    (group : Option String := none) : Option ℚ :=
  sumOpt (extract_optimal_values false group res.objectives).toList

/-- Embeds `active_lower_bounds_constraints`. -/
def active_lower_bounds_constraints (res : OptimizationResult)
    (as_dict : Bool := false) (group : Option String := none) :
    ExtractOut (Option ℚ) :=
  extract_active_lower_bound as_dict group res.constraints

/-- Embeds `active_upper_bounds_constraints`. -/
def active_upper_bounds_constraints (res : OptimizationResult)
    (as_dict : Bool := false) (group : Option String := none) :
    ExtractOut (Option ℚ) :=
  extract_active_upper_bound as_dict group res.constraints

/-- Embeds `active_lower_bounds_decision_variables`. -/
def active_lower_bounds_decision_variables (res : OptimizationResult)
    (as_dict : Bool := false) (group : Option String := none) :
    ExtractOut (Option ℚ) :=
  extract_active_lower_bound as_dict group res.decision_variables

/-- Embeds `active_upper_bounds_decision_variables`. -/
def active_upper_bounds_decision_variables (res : OptimizationResult)
    (as_dict : Bool := false) (group : Option String := none) :
    ExtractOut (Option ℚ) :=
  extract_active_upper_bound as_dict group res.decision_variables

end OptimizationResult

/-- Embeds `quibble.utils.problem.OptimizationProblem`: the registry of
components plus the solved flag and result slot written by the solver.
Solver options and verbosity only affect console output and the opaque
engine configuration, so they are not tracked here. -/
structure OptimizationProblem where
  decision_variables : List DecisionVariable := []
  objectives : List Objective := []
  constraints : List Constraint := []
  result : Option OptimizationResult := none
  solved : Bool := false
deriving Repr, Inhabited

namespace OptimizationProblem

/-- Embeds `OptimizationProblem._check_bounds`: raises (here: returns an error)
when the upper bound is below the lower bound. -/
def check_bounds (name : String) (upper_bound lower_bound : XR) :
    Except String Unit :=
  if upper_bound.lt lower_bound then
    Except.error ("upper bound of " ++ name ++ " is below lower bound")
  else
    Except.ok ()

/-- Derived view `lower_bounds_constraints`. -/
def lower_bounds_constraints (p : OptimizationProblem) : List XR :=
  p.constraints.map (fun c => c.lower_bound)

/-- Derived view `upper_bounds_constraints`. -/
def upper_bounds_constraints (p : OptimizationProblem) : List XR :=
  p.constraints.map (fun c => c.upper_bound)

/-- Derived view `names_constraints`. -/
def names_constraints (p : OptimizationProblem) : List (Option String) :=
  p.constraints.map (fun c => c.name)

/-- Derived view `lower_bounds_decision_variables`. -/
def lower_bounds_decision_variables (p : OptimizationProblem) : List XR :=
  p.decision_variables.map (fun d => d.lower_bound)

/-- Derived view `upper_bounds_decision_variables`. -/
def upper_bounds_decision_variables (p : OptimizationProblem) : List XR :=
  p.decision_variables.map (fun d => d.upper_bound)

/-- Embeds `add_constraint`: validate bounds, default the name to the 1-based
positional default, append. -/
def add_constraint (p : OptimizationProblem) (equation : Expr)
    (lower_bound : XR := XR.negInf) (upper_bound : XR := XR.posInf)
    (name : Option String := none) (group : Option String := none) :
    Except String OptimizationProblem := do
  _ ← check_bounds (toString (repr equation)) upper_bound lower_bound
  let name := match name with
    | none => "Constraint_" ++ toString (p.constraints.length + 1)
    | some n => n
  pure { p with constraints := p.constraints ++
    [{ expr := equation, lower_bound := lower_bound,
       upper_bound := upper_bound, name := some name, group := group }] }

/-- Embeds `add_objective`: no bound validation, default the name, append. -/
def add_objective (p : OptimizationProblem) (objective : Expr)
    (name : Option String := none) (group : Option String := none) :
    OptimizationProblem :=
  let name := match name with
    | none => "Objective_" ++ toString (p.objectives.length + 1)
    | some n => n
  { p with objectives := p.objectives ++
    [{ expr := objective, name := some name, group := group }] }

/-- Embeds `add_decision_variable`: validate bounds, create a fresh symbol
(`Expr.var` at the next free index), append, return the symbol with the
updated problem. -/
def add_decision_variable (p : OptimizationProblem) (name : String)
    (lower_bound : XR := XR.negInf) (upper_bound : XR := XR.posInf)
    (group : Option String := none) :
    Except String (OptimizationProblem × Expr) := do
  _ ← check_bounds name upper_bound lower_bound
  let temp := Expr.var p.decision_variables.length
  pure ({ p with decision_variables := p.decision_variables ++
    [{ expr := temp, lower_bound := lower_bound, upper_bound := upper_bound,
       name := some name, group := group, is_discrete := false }] }, temp)

end OptimizationProblem

/-- One engine answer, as read off the casadi result dict and solver
stats: primal vector `x`, dual vector `lam_x`, achieved objective `f`,
and the reported success flag. -/
structure EngineResult where
  x : List ℚ
  lam_x : List ℚ
  f : ℚ
  success : Bool
deriving DecidableEq, Repr, Inhabited

/-- The engine oracle: trial index and supplied initial guess to engine
answer.  The indexing models the statefulness of the external black box
(deterministic stub engines in the spec scenarios answer by trial). -/
abbrev Engine := ℕ → List ℚ → EngineResult

/-- The arguments of one engine invocation
(`x0`, `lbx`, `ubx`, `lbg`, `ubg`). -/
structure Invocation where
  x0 : List ℚ
  lbx : List XR
  ubx : List XR
  lbg : List XR
  ubg : List XR
deriving DecidableEq, Repr, Inhabited

/-- The mutable state of the trial loop in `Solver._ipopt_start`:
the current initial guess, the two bookkeeping lists, and (for the
theorems) the trace of engine invocations made so far. -/
structure TrialState where
  guess : List ℚ
  successful_trials : List EngineResult := []
  failed_trials : List EngineResult := []
  trace : List (Invocation × EngineResult) := []
deriving DecidableEq, Repr, Inhabited

/-- Embeds `quibble.utils.solver.Solver`: the attached problem and the raw
engine output of the selected best trial (`_solver_result`, an empty dict
until a successful selection, here `none`). -/
structure Solver where
  problem : OptimizationProblem
  solver_result : Option EngineResult := none
deriving Repr, Inhabited

namespace Solver

/-- One iteration of the trial loop: invoke the engine on the current
guess; on failure append to `failed_trials` and take the next guess from
`lam_x`, on success append to `successful_trials` and take the next
guess from `x` (both gathered entry-by-entry over the decision
variables, as the source loops `for count, _ in enumerate(...)`). -/
def runTrial (p : OptimizationProblem) (engine : Engine) (trial : ℕ)
    (s : TrialState) : TrialState :=
  let result := engine trial s.guess
  let inv : Invocation :=
    { x0 := s.guess,
      lbx := p.lower_bounds_decision_variables,
      ubx := p.upper_bounds_decision_variables,
      lbg := p.lower_bounds_constraints,
      ubg := p.upper_bounds_constraints }
  if !result.success then
    { guess := (List.range p.decision_variables.length).map
        (fun count => result.lam_x.getD count 0),
      successful_trials := s.successful_trials,
      failed_trials := s.failed_trials ++ [result],
      trace := s.trace ++ [(inv, result)] }
  else
    { guess := (List.range p.decision_variables.length).map
        (fun count => result.x.getD count 0),
      successful_trials := s.successful_trials ++ [result],
      failed_trials := s.failed_trials,
      trace := s.trace ++ [(inv, result)] }

/-- Embeds the loop `for trial in range(trials)`: run the remaining trials starting at
index `trial`. -/
def runTrialsAux (p : OptimizationProblem) (engine : Engine) :
    ℕ → ℕ → TrialState → TrialState
  | _, 0, s => s
  | trial, remaining + 1, s =>
      runTrialsAux p engine (trial + 1) remaining (runTrial p engine trial s)

/-- The whole trial loop from trial 0. -/
def runTrials (p : OptimizationProblem) (engine : Engine) (trials : ℕ)
    (s : TrialState) : TrialState :=
  runTrialsAux p engine 0 trials s

/-- Embeds `numpy.argmin` on a nonempty list: index of the first minimum
(0 on the empty list, which the source never reaches). -/
def argminIdx : List ℚ → ℕ
  | [] => 0
  | [_] => 0
  | a :: b :: rest =>
      let j := argminIdx (b :: rest)
      if a ≤ (b :: rest).getD j 0 then 0 else j + 1

/-- Embeds the constant `activation_epsilon = 10 ** -5`. -/
def activation_epsilon : ℚ := 1 / 100000

/-- Embeds `Solver._save_optimal_values`: when the problem is solved, create a
fresh result and populate it — each constraint's expression is evaluated
at the selected primal vector (read entry-by-entry over the decision
variables) and its active-bound flags are set by comparing that value to
the declared bounds within `activation_epsilon`; each decision variable
copies its entry of the primal vector; each objective evaluates its own
expression.  When the problem is not solved, nothing happens. -/
def save_optimal_values (s : Solver) : Solver :=
  if s.problem.solved then
    let sr := s.solver_result.getD default
    let xs := (List.range s.problem.decision_variables.length).map
      (fun i => sr.x.getD i 0)
    let constraint_results := s.problem.constraints.map (fun constraint =>
      let temp_result := constraint.expr.eval xs
      { constraint.to_result_component with
          optimal_value := some temp_result,
          upper_bound_active :=
            (constraint.upper_bound.subFin temp_result).absLt
              activation_epsilon,
          lower_bound_active :=
            (constraint.lower_bound.subFin temp_result).absLt
              activation_epsilon })
    let dec_var_results := s.problem.decision_variables.enum.map
      (fun (count, dec_var) =>
        { dec_var.to_result_component with
            optimal_value := some (sr.x.getD count 0) })
    let objective_results := s.problem.objectives.map (fun objective =>
      { objective.to_result_component with
          optimal_value := some (objective.expr.eval xs) })
    let res : OptimizationResult :=
      { constraints := constraint_results,
        objectives := objective_results,
        decision_variables := dec_var_results }
    { s with problem := { s.problem with result := some res } }
  else
    s

/-- Embeds `Solver._ipopt_start`: synthesize a guess when none is given
(uniform between the `replace_inf`-clipped bounds, one random draw
`rand i ∈ [0,1)` per variable), reset `solved`, run the full trial loop,
then either report failure (no successful trial) or select the first
trial achieving the minimum objective value, mark the problem solved and
populate the result.  Returns the final solver state and the loop state
(including the invocation trace). -/
def ipopt_start (s : Solver) (engine : Engine) (trials : ℕ)
    (initial_guess : Option (List ℚ)) (rand : ℕ → ℚ) :
    Solver × TrialState :=
  let guess0 : List ℚ :=
    match initial_guess with
    | some g => g
    | none => s.problem.decision_variables.enum.map (fun (i, var) =>
        replace_inf var.lower_bound + rand i *
          (replace_inf var.upper_bound - replace_inf var.lower_bound))
  let p1 := { s.problem with solved := false }
  let st := runTrials p1 engine trials { guess := guess0 }
  if st.successful_trials.isEmpty then
    let s2 : Solver := { s with problem := { p1 with solved := false } }
    (save_optimal_values s2, st)
  else
    let best_result_index :=
      argminIdx (st.successful_trials.map (fun x => x.f))
    let s2 : Solver :=
      { problem := { p1 with solved := true },
        solver_result := some (st.successful_trials.getD best_result_index
          default) }
    (save_optimal_values s2, st)

/-- Embeds `Solver.start` for the only recognized solver family. -/
def start (s : Solver) (engine : Engine) (trials : ℕ)
    (initial_guess : Option (List ℚ)) (rand : ℕ → ℚ) :
    Solver × TrialState :=
  ipopt_start s engine trials initial_guess rand

/-- The guess the loop hands to the next trial: the primal vector after a
success, the dual vector after a failure, gathered entry-by-entry over
the decision variables. -/
def nextGuessOf (p : OptimizationProblem) (r : EngineResult) : List ℚ :=
  if r.success then
    (List.range p.decision_variables.length).map (fun count => r.x.getD count 0)
  else
    (List.range p.decision_variables.length).map
      (fun count => r.lam_x.getD count 0)

/-- The invocation record a trial with guess `g` produces. -/
def mkInv (p : OptimizationProblem) (g : List ℚ) : Invocation :=
  { x0 := g,
    lbx := p.lower_bounds_decision_variables,
    ubx := p.upper_bounds_decision_variables,
    lbg := p.lower_bounds_constraints,
    ubg := p.upper_bounds_constraints }

/-- The initial guess `ipopt_start` works from: the supplied one, or the
synthesized per-variable uniform sample. -/
def initGuess (s : Solver) (ig : Option (List ℚ)) (rand : ℕ → ℚ) : List ℚ :=
  match ig with
  | some g => g
  | none => s.problem.decision_variables.enum.map (fun (i, var) =>
      replace_inf var.lower_bound + rand i *
        (replace_inf var.upper_bound - replace_inf var.lower_bound))

/-- Loop invariant: consecutive trace entries are linked by the
warm-start rule, and the pending guess is the one dictated by the last
trace entry. -/
structure LoopInv (p : OptimizationProblem) (s : TrialState) : Prop where
  chain : ∀ k, k + 1 < s.trace.length →
    (s.trace.getD (k + 1) default).1.x0 =
      nextGuessOf p (s.trace.getD k default).2
  lastGuess : ∀ e, s.trace.getLast? = some e →
    s.guess = nextGuessOf p e.2

end Solver

namespace Solver

lemma runTrial_trace (p : OptimizationProblem) (engine : Engine) (t : ℕ)
    (s : TrialState) :
    (runTrial p engine t s).trace =
      s.trace ++ [(mkInv p s.guess, engine t s.guess)] := by
  cases h : (engine t s.guess).success <;>
    simp [runTrial, mkInv, h]

lemma runTrial_guess (p : OptimizationProblem) (engine : Engine) (t : ℕ)
    (s : TrialState) :
    (runTrial p engine t s).guess = nextGuessOf p (engine t s.guess) := by
  cases h : (engine t s.guess).success <;>
    simp [runTrial, nextGuessOf, h]

lemma runTrial_successful (p : OptimizationProblem) (engine : Engine) (t : ℕ)
    (s : TrialState) :
    (runTrial p engine t s).successful_trials =
      if (engine t s.guess).success then
        s.successful_trials ++ [engine t s.guess]
      else s.successful_trials := by
  cases h : (engine t s.guess).success <;>
    simp [runTrial, h]

lemma runTrialsAux_trace_length (p : OptimizationProblem) (engine : Engine) :
    ∀ r t s, (runTrialsAux p engine t r s).trace.length = s.trace.length + r := by
  intro r
  induction r with
  | zero => intro t s; simp [runTrialsAux]
  | succ n ih =>
      intro t s
      rw [runTrialsAux, ih, runTrial_trace]
      simp
      omega

lemma runTrialsAux_trace_append (p : OptimizationProblem) (engine : Engine) :
    ∀ r t s, ∃ u, (runTrialsAux p engine t r s).trace = s.trace ++ u := by
  intro r
  induction r with
  | zero => intro t s; exact ⟨[], by simp [runTrialsAux]⟩
  | succ n ih =>
      intro t s
      obtain ⟨u, hu⟩ := ih (t + 1) (runTrial p engine t s)
      refine ⟨[(mkInv p s.guess, engine t s.guess)] ++ u, ?_⟩
      rw [runTrialsAux, hu, runTrial_trace]
      simp

lemma runTrialsAux_trace_entries (p : OptimizationProblem) (engine : Engine)
    (Q : Invocation × EngineResult → Prop)
    (hstep : ∀ t g, Q (mkInv p g, engine t g)) :
    ∀ r t s, (∀ e ∈ s.trace, Q e) →
      ∀ e ∈ (runTrialsAux p engine t r s).trace, Q e := by
  intro r
  induction r with
  | zero => intro t s hs; simpa [runTrialsAux] using hs
  | succ n ih =>
      intro t s hs
      rw [runTrialsAux]
      refine ih (t + 1) (runTrial p engine t s) ?_
      intro e he
      rw [runTrial_trace] at he
      rcases List.mem_append.mp he with h | h
      · exact hs e h
      · simp at h
        subst h
        exact hstep t s.guess

lemma runTrialsAux_no_success (p : OptimizationProblem) (engine : Engine)
    (hfail : ∀ t g, (engine t g).success = false) :
    ∀ r t s, (runTrialsAux p engine t r s).successful_trials =
      s.successful_trials := by
  intro r
  induction r with
  | zero => intro t s; simp [runTrialsAux]
  | succ n ih =>
      intro t s
      rw [runTrialsAux, ih, runTrial_successful, hfail]
      simp

lemma getD_concat_length {α : Type} [Inhabited α] (l : List α) (a : α) :
    (l ++ [a]).getD l.length default = a := by
  simp [List.getD_eq_getElem?_getD]

lemma getLast?_eq_getD {α : Type} [Inhabited α] (l : List α) (h : l ≠ []) :
    l.getLast? = some (l.getD (l.length - 1) default) := by
  rw [List.getLast?_eq_getElem?]
  cases l with
  | nil => simp at h
  | cons b t => simp [List.getD_eq_getElem?_getD]

lemma runTrial_inv (p : OptimizationProblem) (engine : Engine) (t : ℕ)
    (s : TrialState) (h : LoopInv p s) : LoopInv p (runTrial p engine t s) := by
  constructor
  · intro k hk
    rw [runTrial_trace] at hk ⊢
    simp at hk
    rcases Nat.lt_or_ge (k + 1) s.trace.length with hlt | hge
    · rw [List.getD_append _ _ _ _ hlt,
        List.getD_append _ _ _ _ (Nat.lt_of_succ_lt hlt)]
      exact h.chain k hlt
    · have hk1 : k + 1 = s.trace.length := by omega
      have hkl : k < s.trace.length := by omega
      rw [hk1, getD_concat_length, List.getD_append _ _ _ _ hkl]
      have hne : s.trace ≠ [] := by
        intro hnil; rw [hnil] at hkl; simp at hkl
      have hlast := h.lastGuess (s.trace.getD (s.trace.length - 1) default)
        (getLast?_eq_getD s.trace hne)
      have hkk : k = s.trace.length - 1 := by omega
      rw [hkk]
      simpa [mkInv] using hlast
  · intro e he
    rw [runTrial_trace] at he
    rw [List.getLast?_concat] at he
    cases he
    rw [runTrial_guess]

lemma runTrialsAux_inv (p : OptimizationProblem) (engine : Engine) :
    ∀ r t s, LoopInv p s → LoopInv p (runTrialsAux p engine t r s) := by
  intro r
  induction r with
  | zero => intro t s h; simpa [runTrialsAux] using h
  | succ n ih =>
      intro t s h
      rw [runTrialsAux]
      exact ih (t + 1) _ (runTrial_inv p engine t s h)

lemma argminIdx_lt_length (l : List ℚ) (h : l ≠ []) :
    argminIdx l < l.length := by
  induction l with
  | nil => simp at h
  | cons a tail ih =>
      cases tail with
      | nil => simp [argminIdx]
      | cons b rest =>
          rw [argminIdx]
          split
          · simp
          · have := ih (by simp)
            simpa using Nat.succ_lt_succ this

lemma argminIdx_min (l : List ℚ) :
    ∀ j, j < l.length → l.getD (argminIdx l) 0 ≤ l.getD j 0 := by
  induction l with
  | nil => intro j hj; simp at hj
  | cons a tail ih =>
      cases tail with
      | nil =>
          intro j hj
          simp at hj
          simp [argminIdx, hj]
      | cons b rest =>
          intro j hj
          rw [argminIdx]
          split
          · rename_i hle
            cases j with
            | zero => simp
            | succ m =>
                simp only [List.getD_cons_zero, List.getD_cons_succ]
                exact le_trans hle (ih m (by simpa using hj))
          · rename_i hgt
            push_neg at hgt
            cases j with
            | zero =>
                simp only [List.getD_cons_succ, List.getD_cons_zero]
                exact le_of_lt hgt
            | succ m =>
                simp only [List.getD_cons_succ]
                exact ih m (by simpa using hj)

lemma argminIdx_first (l : List ℚ) :
    ∀ j, j < argminIdx l → l.getD (argminIdx l) 0 < l.getD j 0 := by
  induction l with
  | nil => intro j hj; simp [argminIdx] at hj
  | cons a tail ih =>
      cases tail with
      | nil => intro j hj; simp [argminIdx] at hj
      | cons b rest =>
          intro j hj
          rw [argminIdx] at hj ⊢
          split
          · rename_i hle
            rw [if_pos hle] at hj
            simp at hj
          · rename_i hgt
            push_neg at hgt
            rw [if_neg (by push_neg; exact hgt)] at hj
            cases j with
            | zero =>
                simp only [List.getD_cons_succ, List.getD_cons_zero]
                exact hgt
            | succ m =>
                simp only [List.getD_cons_succ]
                exact ih m (Nat.lt_of_succ_lt_succ hj)

lemma map_range_getD_eq (n : ℕ) (l : List ℚ) (h : l.length = n) :
    (List.range n).map (fun i => l.getD i 0) = l := by
  apply List.ext_getElem (by simp [h])
  intro i h1 h2
  simp at h1
  simp [List.getD_eq_getElem?_getD, List.getElem?_eq_getElem (h ▸ h1)]

lemma save_solved (s : Solver) :
    (save_optimal_values s).problem.solved = s.problem.solved := by
  rw [save_optimal_values]
  split <;> rfl

lemma save_solver_result (s : Solver) :
    (save_optimal_values s).solver_result = s.solver_result := by
  rw [save_optimal_values]
  split <;> rfl

lemma save_not_solved (s : Solver) (h : s.problem.solved = false) :
    save_optimal_values s = s := by
  rw [save_optimal_values, if_neg (by simp [h])]

lemma save_solved_result (s : Solver) (hs : s.problem.solved = true) :
    (save_optimal_values s).problem.result = some
      (OptimizationResult.mk
        (s.problem.constraints.map (fun constraint =>
          { constraint.to_result_component with
              optimal_value := some (constraint.expr.eval
                ((List.range s.problem.decision_variables.length).map
                  (fun i => (s.solver_result.getD default).x.getD i 0))),
              upper_bound_active :=
                (constraint.upper_bound.subFin (constraint.expr.eval
                  ((List.range s.problem.decision_variables.length).map
                    (fun i => (s.solver_result.getD default).x.getD i 0)))).absLt
                  activation_epsilon,
              lower_bound_active :=
                (constraint.lower_bound.subFin (constraint.expr.eval
                  ((List.range s.problem.decision_variables.length).map
                    (fun i => (s.solver_result.getD default).x.getD i 0)))).absLt
                  activation_epsilon }))
        (s.problem.objectives.map (fun objective =>
          { objective.to_result_component with
              optimal_value := some (objective.expr.eval
                ((List.range s.problem.decision_variables.length).map
                  (fun i => (s.solver_result.getD default).x.getD i 0))) }))
        (s.problem.decision_variables.enum.map (fun (count, dec_var) =>
          { dec_var.to_result_component with
              optimal_value :=
                some ((s.solver_result.getD default).x.getD count 0) }))) := by
  rw [save_optimal_values, if_pos hs]

lemma ipopt_start_eq (s : Solver) (engine : Engine) (trials : ℕ)
    (ig : Option (List ℚ)) (rand : ℕ → ℚ) :
    ipopt_start s engine trials ig rand =
      (if (runTrials { s.problem with solved := false } engine trials
            { guess := initGuess s ig rand }).successful_trials.isEmpty then
        (save_optimal_values { s with problem :=
            { s.problem with solved := false } },
         runTrials { s.problem with solved := false } engine trials
           { guess := initGuess s ig rand })
      else
        (save_optimal_values
          { problem := { s.problem with solved := true },
            solver_result := some
              ((runTrials { s.problem with solved := false } engine trials
                  { guess := initGuess s ig rand }).successful_trials.getD
                (argminIdx
                  ((runTrials { s.problem with solved := false } engine trials
                      { guess := initGuess s ig rand }).successful_trials.map
                    (fun x => x.f))) default) },
         runTrials { s.problem with solved := false } engine trials
           { guess := initGuess s ig rand })) := by
  cases ig <;> rfl

lemma ipopt_start_snd (s : Solver) (engine : Engine) (trials : ℕ)
    (ig : Option (List ℚ)) (rand : ℕ → ℚ) :
    (ipopt_start s engine trials ig rand).2 =
      runTrials { s.problem with solved := false } engine trials
        { guess := initGuess s ig rand } := by
  rw [ipopt_start_eq]
  split <;> rfl

lemma ipopt_start_fst_empty (s : Solver) (engine : Engine) (trials : ℕ)
    (ig : Option (List ℚ)) (rand : ℕ → ℚ)
    (hemp : (runTrials { s.problem with solved := false } engine trials
      { guess := initGuess s ig rand }).successful_trials = []) :
    (ipopt_start s engine trials ig rand).1 =
      save_optimal_values { s with problem :=
        { s.problem with solved := false } } := by
  rw [ipopt_start_eq, if_pos (by simp [hemp])]

lemma ipopt_start_fst_nonempty (s : Solver) (engine : Engine) (trials : ℕ)
    (ig : Option (List ℚ)) (rand : ℕ → ℚ)
    (hne : (runTrials { s.problem with solved := false } engine trials
      { guess := initGuess s ig rand }).successful_trials ≠ []) :
    (ipopt_start s engine trials ig rand).1 =
      save_optimal_values
        { problem := { s.problem with solved := true },
          solver_result := some
            ((runTrials { s.problem with solved := false } engine trials
                { guess := initGuess s ig rand }).successful_trials.getD
              (argminIdx
                ((runTrials { s.problem with solved := false } engine trials
                    { guess := initGuess s ig rand }).successful_trials.map
                  (fun x => x.f))) default) } := by
  rw [ipopt_start_eq, if_neg (by simp only [List.isEmpty_iff]; exact hne)]

end Solver

lemma XR.lt_irrefl (x : XR) : x.lt x = false := by
  cases x <;> simp [XR.lt]

lemma getD_map_of_lt {α β : Type} [Inhabited α] [Inhabited β] (f : α → β)
    (l : List α) (k : ℕ) (h : k < l.length) :
    (l.map f).getD k default = f (l.getD k default) := by
  simp [List.getD_eq_getElem?_getD, List.getElem?_map,
    List.getElem?_eq_getElem h]

lemma getD_mem_of_lt {α : Type} [Inhabited α] (l : List α) (k : ℕ)
    (h : k < l.length) : l.getD k default ∈ l := by
  rw [List.getD_eq_getElem?_getD, List.getElem?_eq_getElem h]
  exact List.getElem_mem h

lemma sumOpt_isSome (l : List (Option ℚ))
    (h : ∀ o ∈ l, o.isSome = true) :
    ∃ q, OptimizationResult.sumOpt l = some q := by
  induction l with
  | nil => exact ⟨0, rfl⟩
  | cons o rest ih =>
      cases o with
      | none => have := h none (by simp); simp at this
      | some a =>
          obtain ⟨q, hq⟩ := ih (fun o ho => h o (by simp [ho]))
          exact ⟨a + q, by simp [OptimizationResult.sumOpt, hq]⟩

lemma extract_toList_mem (group : Option String)
    (cat : List ResultComponent) (o : Option ℚ)
    (ho : o ∈ (OptimizationResult.extract_optimal_values false group
      cat).toList) : ∃ rc ∈ cat, o = rc.optimal_value := by
  cases group with
  | none =>
      simp [OptimizationResult.extract_optimal_values,
        ExtractOut.toList] at ho
      obtain ⟨rc, hrc, heq⟩ := ho
      exact ⟨rc, hrc, heq.symm⟩
  | some g =>
      simp [OptimizationResult.extract_optimal_values,
        ExtractOut.toList] at ho
      obtain ⟨rc, hrc, heq⟩ := ho
      exact ⟨rc, hrc.1, heq.symm⟩

/-- C1: the active-bound extraction methods do NOT return the boolean
active-bound flags of the result components — evaluated on a result whose
single constraint component has `optimal_value = 7`,
`upper_bound_active = true` and `lower_bound_active = false`, both
`active_upper_bounds_constraints` and `active_lower_bounds_constraints`
return the optimal value `7`, not the flags: the source bodies are
verbatim copies of `_extract_optimal_values`, contradicting their own
docstrings and `List[bool]` return annotations. -/
theorem active_bound_extractors_return_optimal_values :
    OptimizationResult.active_upper_bounds_constraints
        (OptimizationResult.mk
          [ResultComponent.mk (some ("c1")) none (some 7) false true] [] [])
        false none =
      ExtractOut.list [some 7] ∧
    OptimizationResult.active_lower_bounds_constraints
        (OptimizationResult.mk
          [ResultComponent.mk (some ("c1")) none (some 7) false true] [] [])
        false none =
      ExtractOut.list [some 7] ∧
    (ResultComponent.mk (some ("c1")) none (some 7) false
      true).upper_bound_active = true ∧
    (ResultComponent.mk (some ("c1")) none (some 7) false
      true).lower_bound_active = false := by
  refine ⟨rfl, rfl, rfl, rfl⟩

/-- C5: adding a constraint or a decision variable with
`upper_bound < lower_bound` fails with the bound-validation error
(the spec taxonomy's ConfigurationError, a `ValueError` in the source),
and adding one with `upper_bound = lower_bound` succeeds. -/
theorem bound_validation_at_add (p : OptimizationProblem) (equation : Expr)
    (lb ub : XR) (nm : Option String) (vname : String)
    (grp : Option String) :
    (ub.lt lb = true →
      (p.add_constraint equation lb ub nm grp).isOk = false ∧
      (p.add_decision_variable vname lb ub grp).isOk = false) ∧
    (ub = lb →
      (p.add_constraint equation lb ub nm grp).isOk = true ∧
      (p.add_decision_variable vname lb ub grp).isOk = true) := by
  constructor
  · intro h
    constructor <;>
      simp [OptimizationProblem.add_constraint,
        OptimizationProblem.add_decision_variable,
        OptimizationProblem.check_bounds, h, Except.isOk, Except.toBool]
  · intro h
    subst h
    constructor <;>
      simp [OptimizationProblem.add_constraint,
        OptimizationProblem.add_decision_variable,
        OptimizationProblem.check_bounds, XR.lt_irrefl, Except.isOk,
        Except.toBool]

/-- Witness for C5 at concrete bounds: `ub = 1 < lb = 2` is rejected on
both add paths, `ub = lb = 3` is accepted on both. -/
theorem bound_validation_at_add_witness :
    (((OptimizationProblem.mk [] [] [] none false).add_constraint
        (Expr.var 0) (XR.fin 2) (XR.fin 1) none none).isOk = false ∧
      (((OptimizationProblem.mk [] [] [] none false).add_decision_variable
        ("x") (XR.fin 2) (XR.fin 1) none).isOk = false)) ∧
    (((OptimizationProblem.mk [] [] [] none false).add_constraint
        (Expr.var 0) (XR.fin 3) (XR.fin 3) none none).isOk = true ∧
      (((OptimizationProblem.mk [] [] [] none false).add_decision_variable
        ("x") (XR.fin 3) (XR.fin 3) none).isOk = true)) :=
  ⟨(bound_validation_at_add (OptimizationProblem.mk [] [] [] none false)
      (Expr.var 0) (XR.fin 2) (XR.fin 1) none ("x") none).1 (by decide),
   (bound_validation_at_add (OptimizationProblem.mk [] [] [] none false)
      (Expr.var 0) (XR.fin 3) (XR.fin 3) none ("x") none).2 rfl⟩

/-- C10: for a populated (solved) result and any group filter, the sum of
the extracted objective-value sequence agrees with
`optimal_objective_sum` within `1e-9` (they are in fact equal, both being
Python `sum` over the same extracted list). -/
theorem objective_sum_roundtrip (res : OptimizationResult)
    (group : Option String)
    (hpop : ∀ rc ∈ res.objectives, rc.optimal_value.isSome = true) :
    ∃ s1 s2, OptimizationResult.sumOpt
        ((res.optimal_objective_values false group).toList) = some s1 ∧
      res.optimal_objective_sum group = some s2 ∧
      |s1 - s2| ≤ 1 / 1000000000 := by
  obtain ⟨q, hq⟩ := sumOpt_isSome
    ((OptimizationResult.extract_optimal_values false group
      res.objectives).toList)
    (by
      intro o ho
      obtain ⟨rc, hrc, heq⟩ := extract_toList_mem group res.objectives o ho
      rw [heq]
      exact hpop rc hrc)
  exact ⟨q, q, hq, hq, by simp⟩

/-- Witness for C10 on a two-objective populated result. -/
theorem objective_sum_roundtrip_witness :
    ∃ s1 s2, OptimizationResult.sumOpt
        ((OptimizationResult.optimal_objective_values
          (OptimizationResult.mk []
            [ResultComponent.mk (some ("o1")) none (some 2) false false,
             ResultComponent.mk (some ("o2")) none (some 5) false false] [])
          false none).toList) = some s1 ∧
      OptimizationResult.optimal_objective_sum
        (OptimizationResult.mk []
          [ResultComponent.mk (some ("o1")) none (some 2) false false,
           ResultComponent.mk (some ("o2")) none (some 5) false false] [])
        none = some s2 ∧
      |s1 - s2| ≤ 1 / 1000000000 :=
  objective_sum_roundtrip
    (OptimizationResult.mk []
      [ResultComponent.mk (some ("o1")) none (some 2) false false,
       ResultComponent.mk (some ("o2")) none (some 5) false false] [])
    none (by decide)

/-- C4: `start` with `trials ≥ 1` resets the solved flag and then makes
exactly `trials` engine invocations — the trace has length `trials` for
every engine, including ones that succeed early, and the final solved
flag depends only on whether some trial succeeded, not on the flag's
value before the call. -/
theorem all_trials_always_run (s : Solver) (engine : Engine) (trials : ℕ)
    (ig : Option (List ℚ)) (rand : ℕ → ℚ) (_htr : 1 ≤ trials)
    (out : Solver × TrialState)
    (hout : out = Solver.ipopt_start s engine trials ig rand) :
    out.2.trace.length = trials ∧
    out.1.problem.solved = !out.2.successful_trials.isEmpty := by
  subst hout
  constructor
  · rw [Solver.ipopt_start_snd, Solver.runTrials,
      Solver.runTrialsAux_trace_length]
    simp
  · rw [Solver.ipopt_start_eq]
    split
    · rename_i hemp
      simp [Solver.save_solved, hemp]
    · rename_i hemp
      simp [Solver.save_solved, hemp]

/-- Witness for C4: a 3-trial run against an engine that succeeds on
every trial still makes 3 invocations. -/
theorem all_trials_always_run_witness :
    (Solver.ipopt_start (Solver.mk (OptimizationProblem.mk [] [] [] none false) none)
        (fun _ _ => EngineResult.mk [] [] 1 true) 3 (some []) (fun _ => 0)).2.trace.length = 3 ∧
    (Solver.ipopt_start (Solver.mk (OptimizationProblem.mk [] [] [] none false) none)
        (fun _ _ => EngineResult.mk [] [] 1 true) 3 (some []) (fun _ => 0)).1.problem.solved =
      !(Solver.ipopt_start (Solver.mk (OptimizationProblem.mk [] [] [] none false) none)
        (fun _ _ => EngineResult.mk [] [] 1 true) 3 (some []) (fun _ => 0)).2.successful_trials.isEmpty :=
  all_trials_always_run
    (Solver.mk (OptimizationProblem.mk [] [] [] none false) none)
    (fun _ _ => EngineResult.mk [] [] 1 true) 3 (some []) (fun _ => 0)
    (by decide) _ rfl

/-- C6: when every trial fails, `start` returns normally (the embedding
is a total function with no error outcome on this path), the problem is
left unsolved and its result stays `None`. -/
theorem exhausted_trials_unsolved (s : Solver) (engine : Engine)
    (trials : ℕ) (ig : Option (List ℚ)) (rand : ℕ → ℚ)
    (hfail : ∀ t g, (engine t g).success = false)
    (hres : s.problem.result = none)
    (out : Solver × TrialState)
    (hout : out = Solver.ipopt_start s engine trials ig rand) :
    out.1.problem.solved = false ∧ out.1.problem.result = none := by
  subst hout
  rw [Solver.ipopt_start_eq]
  have hsucc : (Solver.runTrials { s.problem with solved := false } engine
      trials { guess := Solver.initGuess s ig rand }).successful_trials = [] := by
    rw [Solver.runTrials, Solver.runTrialsAux_no_success _ _ hfail]
  rw [if_pos (by simp [hsucc])]
  rw [Solver.save_not_solved _ (by rfl)]
  exact ⟨rfl, hres⟩

/-- Witness for C6: two always-failing trials on a fresh problem leave
`solved = false` and `result = none`. -/
theorem exhausted_trials_unsolved_witness :
    (Solver.ipopt_start (Solver.mk (OptimizationProblem.mk [] [] [] none false) none)
        (fun _ _ => EngineResult.mk [] [] 0 false) 2 (some []) (fun _ => 0)).1.problem.solved = false ∧
    (Solver.ipopt_start (Solver.mk (OptimizationProblem.mk [] [] [] none false) none)
        (fun _ _ => EngineResult.mk [] [] 0 false) 2 (some []) (fun _ => 0)).1.problem.result = none :=
  exhausted_trials_unsolved
    (Solver.mk (OptimizationProblem.mk [] [] [] none false) none)
    (fun _ _ => EngineResult.mk [] [] 0 false) 2 (some []) (fun _ => 0)
    (fun _ _ => rfl) rfl _ rfl

/-- C8: active-bound flags are computed only for constraints — whatever
the engine reports, every decision-variable result component in the
populated result carries `lower_bound_active = false` and
`upper_bound_active = false` (the solver writes only `optimal_value`
onto the fresh components, whose flags start `False`). -/
theorem decision_variable_flags_always_false (s : Solver) (engine : Engine)
    (trials : ℕ) (ig : Option (List ℚ)) (rand : ℕ → ℚ)
    (hres : s.problem.result = none) (res : OptimizationResult)
    (hr : (Solver.ipopt_start s engine trials ig rand).1.problem.result =
      some res) :
    ∀ rc ∈ res.decision_variables,
      rc.lower_bound_active = false ∧ rc.upper_bound_active = false := by
  rw [Solver.ipopt_start_eq] at hr
  split at hr
  · rw [Solver.save_not_solved _ (by rfl)] at hr
    simp at hr
    rw [hres] at hr
    exact absurd hr (by simp)
  · rw [Solver.save_solved_result _ (by rfl)] at hr
    simp only [Option.some.injEq] at hr
    subst hr
    intro rc hrc
    simp only [List.mem_map] at hrc
    obtain ⟨pair, hmem, hpair⟩ := hrc
    subst hpair
    exact ⟨rfl, rfl⟩

/-- Witness for C8: a successful solve of a one-variable problem whose
optimum sits exactly on the variable's bound still reports both flags
false on the decision variable. -/
theorem decision_variable_flags_always_false_witness :
    (ResultComponent.mk (some ("x")) none (some 3) false
      false).lower_bound_active = false ∧
    (ResultComponent.mk (some ("x")) none (some 3) false
      false).upper_bound_active = false :=
  decision_variable_flags_always_false
    (Solver.mk
      (OptimizationProblem.mk
        [DecisionVariable.mk
          (OptimizationComponent.mk (Expr.var 0) (XR.fin 3) (XR.fin 5)
            (some ("x")) none) false] [] [] none false) none)
    (fun _ _ => EngineResult.mk [3] [0] 3 true) 1 (some [4]) (fun _ => 0)
    rfl
    (OptimizationResult.mk []
      [] [ResultComponent.mk (some ("x")) none (some 3) false false])
    (by decide)
    (ResultComponent.mk (some ("x")) none (some 3) false false)
    (by decide)

/-- C9: when no initial guess is supplied, the guess handed to the first
trial is synthesized per decision variable as
`replace_inf(lb) + rand · (replace_inf(ub) - replace_inf(lb))` (infinite
bounds replaced by `±10^10` for sampling only), while every trial's
engine invocation receives the unmodified declared bound vectors,
infinite entries included. -/
theorem guess_synthesis_and_unmodified_bounds (s : Solver) (engine : Engine)
    (trials : ℕ) (rand : ℕ → ℚ) (htr : 1 ≤ trials) (st : TrialState)
    (hst : st = (Solver.ipopt_start s engine trials none rand).2) :
    (st.trace.getD 0 default).1.x0 =
      s.problem.decision_variables.enum.map (fun (i, var) =>
        replace_inf var.lower_bound + rand i *
          (replace_inf var.upper_bound - replace_inf var.lower_bound)) ∧
    ∀ e ∈ st.trace,
      e.1.lbx = s.problem.decision_variables.map (fun d => d.lower_bound) ∧
      e.1.ubx = s.problem.decision_variables.map (fun d => d.upper_bound) ∧
      e.1.lbg = s.problem.constraints.map (fun c => c.lower_bound) ∧
      e.1.ubg = s.problem.constraints.map (fun c => c.upper_bound) := by
  subst hst
  rw [Solver.ipopt_start_snd, Solver.runTrials]
  constructor
  · obtain ⟨r, hr⟩ : ∃ r, trials = r + 1 := ⟨trials - 1, by omega⟩
    subst hr
    rw [Solver.runTrialsAux]
    obtain ⟨u, hu⟩ := Solver.runTrialsAux_trace_append _ engine r (0 + 1) _
    rw [hu, Solver.runTrial_trace]
    rfl
  · intro e he
    refine Solver.runTrialsAux_trace_entries
      { s.problem with solved := false } engine
      (fun e =>
        e.1.lbx = s.problem.decision_variables.map (fun d => d.lower_bound) ∧
        e.1.ubx = s.problem.decision_variables.map (fun d => d.upper_bound) ∧
        e.1.lbg = s.problem.constraints.map (fun c => c.lower_bound) ∧
        e.1.ubg = s.problem.constraints.map (fun c => c.upper_bound))
      (fun t g => ⟨rfl, rfl, rfl, rfl⟩) trials 0 _ ?_ e he
    intro e' he'
    simp at he'

/-- Witness for C9: one variable with bounds `(-inf, 5]`; the sampled
guess is `-10^10 + r·(5 + 10^10)` and the engine still receives the
declared `-inf` lower bound. -/
theorem guess_synthesis_and_unmodified_bounds_witness :
    ((Solver.ipopt_start
        (Solver.mk (OptimizationProblem.mk
          [DecisionVariable.mk (OptimizationComponent.mk (Expr.var 0)
            XR.negInf (XR.fin 5) (some ("x")) none) false] [] [] none false)
          none)
        (fun _ _ => EngineResult.mk [0] [0] 0 true) 1 none
        (fun _ => 1 / 2)).2.trace.getD 0 default).1.x0 =
      [-(10 ^ 10) + (1 / 2 : ℚ) * (5 + 10 ^ 10)] ∧
    ((Solver.ipopt_start
        (Solver.mk (OptimizationProblem.mk
          [DecisionVariable.mk (OptimizationComponent.mk (Expr.var 0)
            XR.negInf (XR.fin 5) (some ("x")) none) false] [] [] none false)
          none)
        (fun _ _ => EngineResult.mk [0] [0] 0 true) 1 none
        (fun _ => 1 / 2)).2.trace.getD 0 default).1.lbx = [XR.negInf] := by
  have h := guess_synthesis_and_unmodified_bounds
    (Solver.mk (OptimizationProblem.mk
      [DecisionVariable.mk (OptimizationComponent.mk (Expr.var 0)
        XR.negInf (XR.fin 5) (some ("x")) none) false] [] [] none false)
      none)
    (fun _ _ => EngineResult.mk [0] [0] 0 true) 1 (fun _ => 1 / 2)
    (by decide) _ rfl
  constructor
  · rw [h.1]
    norm_num [List.enum, List.enumFrom, replace_inf]
  · have h2 := (h.2 _ (getD_mem_of_lt _ 0 (by norm_num
      [Solver.ipopt_start_snd, Solver.runTrials,
        Solver.runTrialsAux_trace_length]))).1
    rw [h2]
    rfl

/-- C3: whenever at least one trial succeeds, the selected canonical
solution is the successful trial whose objective value is the first
minimum in trial order (`numpy.argmin` semantics), and the problem is
marked solved. -/
theorem best_of_trials_selection (s : Solver) (engine : Engine)
    (trials : ℕ) (ig : Option (List ℚ)) (rand : ℕ → ℚ) (st : TrialState)
    (hst : st = (Solver.ipopt_start s engine trials ig rand).2)
    (hne : st.successful_trials ≠ []) :
    (Solver.ipopt_start s engine trials ig rand).1.problem.solved = true ∧
    (Solver.ipopt_start s engine trials ig rand).1.solver_result =
      some (st.successful_trials.getD
        (Solver.argminIdx (st.successful_trials.map (fun x => x.f)))
        default) ∧
    (∀ j, j < st.successful_trials.length →
      (st.successful_trials.map (fun x => x.f)).getD
          (Solver.argminIdx (st.successful_trials.map (fun x => x.f))) 0 ≤
        (st.successful_trials.map (fun x => x.f)).getD j 0) ∧
    (∀ j, j < Solver.argminIdx (st.successful_trials.map (fun x => x.f)) →
      (st.successful_trials.map (fun x => x.f)).getD
          (Solver.argminIdx (st.successful_trials.map (fun x => x.f))) 0 <
        (st.successful_trials.map (fun x => x.f)).getD j 0) := by
  subst hst
  rw [Solver.ipopt_start_snd] at hne
  rw [Solver.ipopt_start_snd,
    Solver.ipopt_start_fst_nonempty s engine trials ig rand hne]
  refine ⟨by rw [Solver.save_solved], by rw [Solver.save_solver_result], ?_, ?_⟩
  · intro j hj
    exact Solver.argminIdx_min _ j (by simpa using hj)
  · intro j hj
    exact Solver.argminIdx_first _ j hj

/-- Witness for C3: a stub engine succeeding on all 3 trials with
objective values `[5, 2, 3]`; the trial with value `2` is selected and
the problem is marked solved. -/
theorem best_of_trials_selection_witness :
    (Solver.ipopt_start
        (Solver.mk (OptimizationProblem.mk [] [] [] none false) none)
        (fun t _ => EngineResult.mk [0] [0] (([5, 2, 3] : List ℚ).getD t 0)
          true) 3 (some []) (fun _ => 0)).1.problem.solved = true ∧
    (Solver.ipopt_start
        (Solver.mk (OptimizationProblem.mk [] [] [] none false) none)
        (fun t _ => EngineResult.mk [0] [0] (([5, 2, 3] : List ℚ).getD t 0)
          true) 3 (some []) (fun _ => 0)).1.solver_result =
      some (EngineResult.mk [0] [0] 2 true) := by
  have h := best_of_trials_selection
    (Solver.mk (OptimizationProblem.mk [] [] [] none false) none)
    (fun t _ => EngineResult.mk [0] [0] (([5, 2, 3] : List ℚ).getD t 0)
      true) 3 (some []) (fun _ => 0) _ rfl (by decide)
  refine ⟨h.1, ?_⟩
  rw [h.2.1]
  decide

/-- C7: after a successful solve, each constraint's stored optimal value
is its expression evaluated at the selected primal vector, and each
active-bound flag is true exactly when that value lies within absolute
tolerance `1e-5` of the corresponding declared (finite) bound — in
particular both flags are false when the value is at least `1e-5` away
from both bounds, and a flag is false whenever its bound is infinite. -/
theorem constraint_active_bound_flags (s : Solver) (sr : EngineResult)
    (hsolved : s.problem.solved = true) (hsr : s.solver_result = some sr)
    (res : OptimizationResult)
    (hres : (Solver.save_optimal_values s).problem.result = some res)
    (k : ℕ) (hk : k < s.problem.constraints.length)
    (c : Constraint) (hc : c = s.problem.constraints.getD k default)
    (xs : List ℚ)
    (hxs : xs = (List.range s.problem.decision_variables.length).map
      (fun i => sr.x.getD i 0)) :
    (res.constraints.getD k default).optimal_value =
      some (c.expr.eval xs) ∧
    ((res.constraints.getD k default).upper_bound_active = true ↔
      ∃ b, c.upper_bound = XR.fin b ∧
        |b - c.expr.eval xs| < 1 / 100000) ∧
    ((res.constraints.getD k default).lower_bound_active = true ↔
      ∃ b, c.lower_bound = XR.fin b ∧
        |b - c.expr.eval xs| < 1 / 100000) := by
  subst hc hxs
  rw [Solver.save_solved_result s hsolved] at hres
  simp only [Option.some.injEq] at hres
  subst hres
  simp only [hsr, Option.getD_some]
  rw [getD_map_of_lt _ _ _ hk]
  refine ⟨rfl, ?_, ?_⟩
  · cases hub : (s.problem.constraints.getD k default).upper_bound with
    | negInf => simp [hub, XR.subFin, XR.absLt]
    | fin b =>
        simp [hub, XR.subFin, XR.absLt, Solver.activation_epsilon]
    | posInf => simp [hub, XR.subFin, XR.absLt]
  · cases hlb : (s.problem.constraints.getD k default).lower_bound with
    | negInf => simp [hlb, XR.subFin, XR.absLt]
    | fin b =>
        simp [hlb, XR.subFin, XR.absLt, Solver.activation_epsilon]
    | posInf => simp [hlb, XR.subFin, XR.absLt]

/-- Witness for C7: one variable, primal solution `x = [5]`, constraint
expression `x` with bounds `[0, 5]`: the stored value is `5`, the upper
bound is active, the lower is not. -/
theorem constraint_active_bound_flags_witness :
    ((OptimizationResult.mk
      [ResultComponent.mk (some ("c")) none (some 5) false true] [] []).constraints.getD
        0 default).optimal_value = some 5 ∧
    ((OptimizationResult.mk
      [ResultComponent.mk (some ("c")) none (some 5) false true] [] []).constraints.getD
        0 default).upper_bound_active = true ∧
    ((OptimizationResult.mk
      [ResultComponent.mk (some ("c")) none (some 5) false true] [] []).constraints.getD
        0 default).lower_bound_active = false := by
  have h := constraint_active_bound_flags
    (Solver.mk
      (OptimizationProblem.mk
        [DecisionVariable.mk (OptimizationComponent.mk (Expr.var 0)
          (XR.fin 0) (XR.fin 10) (some ("x")) none) false]
        []
        [OptimizationComponent.mk (Expr.var 0) (XR.fin 0) (XR.fin 5)
          (some ("c")) none]
        none true)
      (some (EngineResult.mk [5] [0] 5 true)))
    (EngineResult.mk [5] [0] 5 true) rfl rfl
    (OptimizationResult.mk
      [ResultComponent.mk (some ("c")) none (some 5) false true] []
      [ResultComponent.mk (some ("x")) none (some 5) false false])
    (by
      rw [Solver.save_solved_result _ rfl]
      simp [Expr.eval, OptimizationComponent.to_result_component,
        Solver.activation_epsilon, XR.subFin, XR.absLt, List.range_succ]
      norm_num)
    0 (by decide) _ rfl _ rfl
  refine ⟨?_, ?_, ?_⟩
  · rw [h.1]
    simp [Expr.eval, List.range_succ]
  · exact (h.2.1).mpr ⟨5, rfl, by norm_num [Expr.eval, List.range_succ]⟩
  · rfl

/-- C2: inside the trial loop, the initial guess supplied to trial `k+1`
is exactly the dual vector `lam_x` returned by trial `k` when that trial
failed, and exactly the primal vector `x` it returned when it succeeded
(for engines whose vectors have one entry per decision variable). -/
theorem warm_start_guess_propagation (s : Solver) (engine : Engine)
    (trials : ℕ) (ig : Option (List ℚ)) (rand : ℕ → ℚ)
    (hx : ∀ t g, (engine t g).x.length =
      s.problem.decision_variables.length)
    (hlam : ∀ t g, (engine t g).lam_x.length =
      s.problem.decision_variables.length)
    (st : TrialState)
    (hst : st = (Solver.ipopt_start s engine trials ig rand).2)
    (k : ℕ) (hk : k + 1 < st.trace.length) :
    (st.trace.getD (k + 1) default).1.x0 =
      if (st.trace.getD k default).2.success then
        (st.trace.getD k default).2.x
      else (st.trace.getD k default).2.lam_x := by
  subst hst
  rw [Solver.ipopt_start_snd, Solver.runTrials] at hk ⊢
  have hinv := Solver.runTrialsAux_inv { s.problem with solved := false }
    engine trials 0 { guess := Solver.initGuess s ig rand }
    (by
      constructor
      · intro k hk
        simp at hk
      · intro e he
        simp at he)
  have hchain := hinv.chain k hk
  have hQ := Solver.runTrialsAux_trace_entries
    { s.problem with solved := false } engine
    (fun e => e.2.x.length = s.problem.decision_variables.length ∧
      e.2.lam_x.length = s.problem.decision_variables.length)
    (fun t g => ⟨hx t g, hlam t g⟩) trials 0
    { guess := Solver.initGuess s ig rand }
    (by intro e he; simp at he)
  have hmem := getD_mem_of_lt
    (Solver.runTrialsAux { s.problem with solved := false } engine 0 trials
      { guess := Solver.initGuess s ig rand }).trace k
    (Nat.lt_of_succ_lt hk)
  have hQk := hQ _ hmem
  rw [hchain]
  by_cases hsucc : ((Solver.runTrialsAux { s.problem with solved := false }
      engine 0 trials
      { guess := Solver.initGuess s ig rand }).trace.getD k
        default).2.success = true
  · rw [if_pos hsucc]
    simp only [Solver.nextGuessOf, hsucc, if_true]
    exact Solver.map_range_getD_eq _ _ hQk.1
  · rw [if_neg hsucc]
    simp only [Solver.nextGuessOf, hsucc, if_false]
    exact Solver.map_range_getD_eq _ _ hQk.2

/-- Witness for C2: a one-variable problem, an engine that fails trial 1
returning the dual vector `[9]` and succeeds afterwards; the guess handed
to trial 2 is exactly `[9]`. -/
theorem warm_start_guess_propagation_witness :
    ((Solver.ipopt_start
      (Solver.mk (OptimizationProblem.mk
        [DecisionVariable.mk (OptimizationComponent.mk (Expr.var 0)
          (XR.fin 0) (XR.fin 10) (some ("x")) none) false] [] [] none false)
        none)
      (fun t _ => if t = 0 then EngineResult.mk [1] [9] 0 false
        else EngineResult.mk [2] [0] 1 true) 2 (some [0])
      (fun _ => 0)).2.trace.getD 1 default).1.x0 = [9] := by
  have h := warm_start_guess_propagation
    (Solver.mk (OptimizationProblem.mk
      [DecisionVariable.mk (OptimizationComponent.mk (Expr.var 0)
        (XR.fin 0) (XR.fin 10) (some ("x")) none) false] [] [] none false)
      none)
    (fun t _ => if t = 0 then EngineResult.mk [1] [9] 0 false
      else EngineResult.mk [2] [0] 1 true) 2 (some [0]) (fun _ => 0)
    (by intro t g; by_cases ht : t = 0 <;> simp [ht])
    (by intro t g; by_cases ht : t = 0 <;> simp [ht])
    _ rfl 0 (by decide)
  rw [h]
  decide

end Quibble
